import Mathlib

/-!
Verification of the godx storage-client segment-upload pipeline
(`storage/storageclient/contractmanager/contractcreate.go`, storageclient part)
and the filesystem test disrupter (`storage/storageclient/filesystem`).

The Go code is shallowly embedded: Go `int` counters become `ℤ`, Go `uint64`
byte counts become `ℕ` (the byte quantities involved are sums of a handful of
values far below `2^64`, so wrap-around cannot occur and is not modelled),
Go byte slices become `List ℕ`, nilable slices become `Option (List ℕ)`,
Go maps become functions into `Option`, and a Go runtime panic (index out of
range, integer division by zero) is modelled by an `Option`-returning function
yielding `none`.  External collaborators whose code is outside the excerpt
(erasure coder, cipher, download path, the PRNG, worker readiness) are passed
in as explicit function parameters, so every in-excerpt branch is modelled
exactly as written.
-/

/-- Bytes of a Go `[]byte`, one `ℕ` per byte. -/
abbrev Bytes : Type := List ℕ

/-- One network worker, as seen from a single segment.  The worker type itself
is declared outside the excerpt; the model keeps the two pieces of state the
excerpt reads and writes: the result of `isReady(uc)` for this segment
(modelled as a fixed flag, since nothing in the excerpt changes it) and
`sectorIndexMap[uc]`, the list of sector indices assigned to this worker for
this segment. -/
structure Worker where
  ready : Bool
  sectorIndexMap : List ℕ
deriving DecidableEq

/-- The fields of `unfinishedUploadSegment` that the modelled functions read or
write.  Go `int` fields are `ℤ`; `uint64` memory counters are `ℕ`;
`physicalSegmentData [][]byte` is a list of nilable buffers. -/
structure UnfinishedUploadSegment where
  memoryNeeded : ℕ
  memoryReleased : ℕ
  sectorsMinNeedNum : ℤ
  sectorsAllNeedNum : ℤ
  stuck : Bool
  stuckRepair : Bool
  logicalSegmentData : List Bytes
  physicalSegmentData : List (Option Bytes)
  sectorSlotsStatus : List Bool
  sectorsCompletedNum : ℤ
  sectorsUploadingNum : ℤ
  released : Bool
  workersRemain : ℤ
  workerBackups : List Worker
deriving DecidableEq

/-- `unfinishedUploadSegment.IsSegmentUploadComplete`: complete when all
sectors are uploaded and none is in flight, or when no workers remain and none
is in flight. -/
def IsSegmentUploadComplete (uc : UnfinishedUploadSegment) : Bool :=
  if uc.sectorsCompletedNum = uc.sectorsAllNeedNum ∧ uc.sectorsUploadingNum = 0 then
    true
  else if uc.workersRemain = 0 ∧ uc.sectorsUploadingNum = 0 then
    true
  else
    false

/-- A segment value with neutral fields, used to build concrete test segments
by record update. -/
def baseSegment : UnfinishedUploadSegment :=
  { memoryNeeded := 0
    memoryReleased := 0
    sectorsMinNeedNum := 0
    sectorsAllNeedNum := 0
    stuck := false
    stuckRepair := false
    logicalSegmentData := []
    physicalSegmentData := []
    sectorSlotsStatus := []
    sectorsCompletedNum := 0
    sectorsUploadingNum := 0
    released := false
    workersRemain := 0
    workerBackups := [] }

/-- Claim C2: `IsSegmentUploadComplete` returns true exactly when
(`sectorsCompletedNum = sectorsAllNeedNum` and `sectorsUploadingNum = 0`) or
(`workersRemain = 0` and `sectorsUploadingNum = 0`); with `totalSectors = 10`
it is true for (completed 10, uploading 0), true for (workersRemain 0,
uploading 0, completed 6), and false whenever `sectorsUploadingNum = 1`. -/
theorem isSegmentUploadComplete_spec (uc : UnfinishedUploadSegment) :
    (IsSegmentUploadComplete uc = true ↔
      ((uc.sectorsCompletedNum = uc.sectorsAllNeedNum ∧ uc.sectorsUploadingNum = 0) ∨
        (uc.workersRemain = 0 ∧ uc.sectorsUploadingNum = 0))) ∧
    IsSegmentUploadComplete { baseSegment with
      sectorsMinNeedNum := 4, sectorsAllNeedNum := 10,
      sectorsCompletedNum := 10, sectorsUploadingNum := 0, workersRemain := 7 } = true ∧
    IsSegmentUploadComplete { baseSegment with
      sectorsMinNeedNum := 4, sectorsAllNeedNum := 10,
      sectorsCompletedNum := 6, sectorsUploadingNum := 0, workersRemain := 0 } = true ∧
    (uc.sectorsUploadingNum = 1 → IsSegmentUploadComplete uc = false) := by
  refine ⟨?_, by decide, by decide, ?_⟩
  · unfold IsSegmentUploadComplete
    split
    · simp_all
    · split
      · simp_all
      · simp_all [not_or]
  · intro h
    unfold IsSegmentUploadComplete
    split
    · simp_all
    · split
      · simp_all
      · rfl

/-- Witness for C2: a segment with one sector in flight is not complete even
with every counter otherwise favourable. -/
theorem isSegmentUploadComplete_spec_witness :
    IsSegmentUploadComplete { baseSegment with
      sectorsMinNeedNum := 4, sectorsAllNeedNum := 10,
      sectorsCompletedNum := 10, sectorsUploadingNum := 1, workersRemain := 0 } = false :=
  (isSegmentUploadComplete_spec _).2.2.2 rfl

/-- The test disrupter with a call counter
(`storage/storageclient/filesystem`, `counterDisrupter`).  The wrapped
`disrupter` is kept abstract as the boolean it returns per keyword; the Go
`map[string]int` with its comma-ok lookup becomes a function into `Option ℕ`
(with the Go zero value `0` for a missing key). -/
structure counterDisrupter where
  inner : String → Bool
  counter : String → Option ℕ

/-- `newCounterDisrupter`: wraps a disrupter with an empty counter map. -/
def newCounterDisrupter (inner : String → Bool) : counterDisrupter :=
  { inner := inner, counter := fun _ => none }

/-- `counterDisrupter.disrupt`: the source reads
`c, exist := cd.counter[s]`, then stores `c + 1` in the *not-exist* branch and
the constant `1` in the *exist* branch, and finally delegates to the wrapped
disrupter. -/
def counterDisrupter.disrupt (cd : counterDisrupter) (s : String) :
    counterDisrupter × Bool :=
  let c : ℕ := (cd.counter s).getD 0
  let exist : Bool := (cd.counter s).isSome
  if !exist then
    ({ cd with counter := fun t => if t = s then some (c + 1) else cd.counter t },
      cd.inner s)
  else
    ({ cd with counter := fun t => if t = s then some 1 else cd.counter t },
      cd.inner s)

/-- `n` successive calls of `disrupt s` with no other operation touching the
counter. -/
def disruptN (s : String) (cd : counterDisrupter) : ℕ → counterDisrupter
  | 0 => cd
  | n + 1 => ((disruptN s cd n).disrupt s).1

theorem counterDisrupter.disrupt_counter_eq_one (cd : counterDisrupter)
    (s : String) : ((cd.disrupt s).1).counter s = some 1 := by
  unfold counterDisrupter.disrupt
  cases h : cd.counter s <;> simp [h]

/-- Claim C10: starting from any `counterDisrupter`, after `n ≥ 1` calls of
`disrupt s` the recorded count for `s` is exactly `1` — never the number of
calls when `n ≠ 1` — because the exist/not-exist branches of the map update
are inverted. -/
theorem counterDisrupter_count_stays_one (cd : counterDisrupter) (s : String)
    (n : ℕ) (h : 1 ≤ n) :
    (disruptN s cd n).counter s = some 1 ∧
      (n ≠ 1 → (disruptN s cd n).counter s ≠ some n) := by
  obtain ⟨m, rfl⟩ : ∃ m, n = m + 1 := ⟨n - 1, by omega⟩
  have h1 : (disruptN s cd (m + 1)).counter s = some 1 :=
    counterDisrupter.disrupt_counter_eq_one _ s
  refine ⟨h1, fun hne hcontra => ?_⟩
  rw [h1] at hcontra
  exact hne (Option.some.inj hcontra).symm

/-- Witness for C10: three calls on a fresh counter disrupter leave the count
at `1`, not `3`. -/
theorem counterDisrupter_count_stays_one_witness :
    (1 ≤ 3) ∧
      (disruptN "kw" (newCounterDisrupter fun _ => true) 3).counter "kw" = some 1 ∧
      (disruptN "kw" (newCounterDisrupter fun _ => true) 3).counter "kw" ≠ some 3 := by
  have h := counterDisrupter_count_stays_one
    (newCounterDisrupter fun _ => true) "kw" 3 (by norm_num)
  exact ⟨by norm_num, h.1, h.2 (by norm_num)⟩

/-- Modelled from the spec: the constant `RemoteRepairDownloadThreshold` is
declared outside the excerpt; the spec fixes it at `0.1`.  The Go `float64`
arithmetic of the stuck computation is modelled by exact rationals (at the
argument values of the claims the two agree). -/
def RemoteRepairDownloadThreshold : ℚ := 1 / 10

/-- The result of `updateUploadSegmentStuckStatus`: the stuck flag written to
the file through `SetStuckByIndex` (`none` when the function returns early
because the repair failed and the client is offline), and whether the stuck
loop was signalled. -/
structure StuckUpdateResult where
  stuckWritten : Option Bool
  stuckLoopSignaled : Bool
deriving DecidableEq

/-- `updateUploadSegmentStuckStatus`: the repair is successful when
`(1 - RemoteRepairDownloadThreshold) * sectorsAllNeedNum ≤
sectorsCompletedNum`; on an unsuccessful repair with the client offline the
function returns without writing; otherwise it writes `!successfulRepair` as
the stuck flag and signals the stuck loop when a stuck segment under stuck
repair was successfully repaired. -/
def updateUploadSegmentStuckStatus (clientOffline : Bool)
    (uc : UnfinishedUploadSegment) : StuckUpdateResult :=
  let successfulRepair : Bool :=
    decide ((1 - RemoteRepairDownloadThreshold) * (uc.sectorsAllNeedNum : ℚ) ≤
      (uc.sectorsCompletedNum : ℚ))
  if !successfulRepair && clientOffline then
    { stuckWritten := none, stuckLoopSignaled := false }
  else
    { stuckWritten := some (!successfulRepair),
      stuckLoopSignaled := uc.stuck && (successfulRepair && uc.stuckRepair) }

/-- Claim C3: the stuck update marks the repair successful (writes stuck =
false) exactly when `(1 - RemoteRepairDownloadThreshold) * sectorsAllNeedNum ≤
sectorsCompletedNum` and marks the file stuck otherwise; with threshold `0.1`
and `totalSectors = 10`, `completedCount = 9` is written not-stuck and
`completedCount = 8` is written stuck. -/
theorem updateUploadSegmentStuckStatus_spec (uc : UnfinishedUploadSegment) :
    ((updateUploadSegmentStuckStatus false uc).stuckWritten = some false ↔
      (1 - RemoteRepairDownloadThreshold) * (uc.sectorsAllNeedNum : ℚ) ≤
        (uc.sectorsCompletedNum : ℚ)) ∧
    ((updateUploadSegmentStuckStatus false uc).stuckWritten = some true ↔
      ¬ (1 - RemoteRepairDownloadThreshold) * (uc.sectorsAllNeedNum : ℚ) ≤
        (uc.sectorsCompletedNum : ℚ)) ∧
    (updateUploadSegmentStuckStatus false { baseSegment with
      sectorsMinNeedNum := 4, sectorsAllNeedNum := 10,
      sectorsCompletedNum := 9 }).stuckWritten = some false ∧
    (updateUploadSegmentStuckStatus false { baseSegment with
      sectorsMinNeedNum := 4, sectorsAllNeedNum := 10,
      sectorsCompletedNum := 8 }).stuckWritten = some true := by
  refine ⟨?_, ?_, ?_, ?_⟩
  · unfold updateUploadSegmentStuckStatus
    by_cases h : (1 - RemoteRepairDownloadThreshold) * (uc.sectorsAllNeedNum : ℚ) ≤
        (uc.sectorsCompletedNum : ℚ) <;> simp [h]
  · unfold updateUploadSegmentStuckStatus
    by_cases h : (1 - RemoteRepairDownloadThreshold) * (uc.sectorsAllNeedNum : ℚ) ≤
        (uc.sectorsCompletedNum : ℚ) <;> simp [h]
  · simp only [updateUploadSegmentStuckStatus, baseSegment]
    norm_num [RemoteRepairDownloadThreshold]
  · simp only [updateUploadSegmentStuckStatus, baseSegment]
    norm_num [RemoteRepairDownloadThreshold]

theorem getD_set_self {α : Type} (l : List α) {i : ℕ} (hi : i < l.length)
    (w d : α) : (l.set i w).getD i d = w := by
  rw [List.getD_eq_getD_get?, List.get?_eq_getElem?, List.getElem?_set_eq_of_lt _ hi]
  rfl

theorem getD_set_ne {α : Type} (l : List α) {i j : ℕ} (h : i ≠ j) (w d : α) :
    (l.set i w).getD j d = l.getD j d := by
  rw [List.getD_eq_getD_get?, List.get?_eq_getElem?, List.getElem?_set_ne h,
    ← List.get?_eq_getElem?, ← List.getD_eq_getD_get?]

/-- The loop of `randomAssignSectorTaskToWorker`, walking the sector slots at
absolute index `i`.  `rand i` is the value of the `rand.Int()` call made at
slot `i` (the shared PRNG is external).  Go computes
`workerIndex := (i + rand.Int()) % length` before testing the slot, so with an
empty worker list any slot at all triggers the division-by-zero runtime panic,
modelled as `none`.  A free slot whose chosen worker is ready is appended to
that worker's `sectorIndexMap` entry and marked claimed. -/
def randomAssignGo (rand : ℕ → ℕ) :
    List Bool → ℕ → List Worker → Option (List Worker × List Bool)
  | [], _, ws => some (ws, [])
  | s :: rest, i, ws =>
    if h : ws.length = 0 then
      none
    else
      let wi : ℕ := (i + rand i) % ws.length
      let w : Worker := ws.get ⟨wi, Nat.mod_lt _ (Nat.pos_of_ne_zero h)⟩
      if !s && w.ready then
        match randomAssignGo rand rest (i + 1)
            (ws.set wi { w with sectorIndexMap := w.sectorIndexMap ++ [i] }) with
        | none => none
        | some (ws2, sl) => some (ws2, true :: sl)
      else
        match randomAssignGo rand rest (i + 1) ws with
        | none => none
        | some (ws2, sl) => some (ws2, s :: sl)

/-- `randomAssignSectorTaskToWorker`: assigns each still-free sector slot to
the single worker at pseudo-random index `(i + rand.Int()) mod len(workers)`,
when that worker is ready.  Returns the updated workers and slot statuses;
`none` models the runtime panic. -/
def randomAssignSectorTaskToWorker (rand : ℕ → ℕ) (workers : List Worker)
    (slots : List Bool) : Option (List Worker × List Bool) :=
  randomAssignGo rand slots 0 workers

theorem randomAssignGo_spec (rand : ℕ → ℕ) :
    ∀ (slots : List Bool) (i : ℕ) (ws : List Worker), ws.length ≠ 0 →
      ∃ ws2 sl, randomAssignGo rand slots i ws = some (ws2, sl) ∧
        ws2.length = ws.length ∧
        (∀ j, (ws2.getD j ⟨false, []⟩).ready = (ws.getD j ⟨false, []⟩).ready) ∧
        sl.length = slots.length ∧
        (∀ k, k < slots.length →
          sl.getD k true =
            (slots.getD k false ||
              (ws.getD ((i + k + rand (i + k)) % ws.length) ⟨false, []⟩).ready)) := by
  intro slots
  induction slots with
  | nil =>
    intro i ws hws
    exact ⟨ws, [], rfl, rfl, fun _ => rfl, rfl, fun k hk => absurd hk (by simp)⟩
  | cons s rest ih =>
    intro i ws hws
    have hpos : 0 < ws.length := Nat.pos_of_ne_zero hws
    have hwi : (i + rand i) % ws.length < ws.length := Nat.mod_lt _ hpos
    unfold randomAssignGo
    rw [dif_neg hws]
    set wi : ℕ := (i + rand i) % ws.length with hwidef
    set w : Worker := ws.get ⟨wi, hwi⟩ with hwdef
    have hgetw : ws.getD wi ⟨false, []⟩ = w := by
      rw [List.getD_eq_getElem _ _ hwi, hwdef, List.get_eq_getElem]
    by_cases hcond : (!s && w.ready) = true
    · -- slot free and the chosen worker ready: assign and claim
      rw [if_pos hcond]
      set ws' : List Worker :=
        ws.set wi { w with sectorIndexMap := w.sectorIndexMap ++ [i] } with hws'
      have hlen' : ws'.length = ws.length := List.length_set ..
      have hready' : ∀ j, (ws'.getD j ⟨false, []⟩).ready = (ws.getD j ⟨false, []⟩).ready := by
        intro j
        by_cases hj : wi = j
        · subst hj
          rw [hws', getD_set_self ws hwi, hgetw]
        · rw [hws', getD_set_ne ws hj]
      obtain ⟨ws2, sl, heq, hlen2, hready2, hsllen, hsl⟩ :=
        ih (i + 1) ws' (by rw [hlen']; exact hws)
      refine ⟨ws2, true :: sl, by rw [heq], by rw [hlen2, hlen'], ?_, by simp [hsllen], ?_⟩
      · intro j
        rw [hready2 j, hready' j]
      · intro k hk
        match k with
        | 0 =>
          have hs : s = false := by
            cases s <;> simp_all
          have hre : w.ready = true := by
            cases hre : w.ready <;> simp_all
          simp only [List.getD_cons_zero, hs, Nat.add_zero, ← hwidef, hgetw, hre,
            Bool.false_or]
        | k + 1 =>
          have hk' : k < rest.length := by simpa using hk
          have := hsl k hk'
          have hidx : i + 1 + k = i + (k + 1) := by omega
          rw [List.getD_cons_succ, List.getD_cons_succ, this, hidx, hlen']
          congr 1
          rw [hready' _]
    · -- slot already claimed, or the chosen worker not ready: slot unchanged
      rw [if_neg hcond]
      obtain ⟨ws2, sl, heq, hlen2, hready2, hsllen, hsl⟩ := ih (i + 1) ws hws
      refine ⟨ws2, s :: sl, by rw [heq], hlen2, hready2, by simp [hsllen], ?_⟩
      intro k hk
      match k with
      | 0 =>
        cases hs : s
        · have hre : w.ready = false := by
            cases hre : w.ready <;> simp_all
          simp only [List.getD_cons_zero, Nat.add_zero, ← hwidef, hgetw, hre,
            Bool.or_false]
        · simp
      | k + 1 =>
        have hk' : k < rest.length := by simpa using hk
        have := hsl k hk'
        have hidx : i + 1 + k = i + (k + 1) := by omega
        rw [List.getD_cons_succ, List.getD_cons_succ, this, hidx]

/-- Claim C7 counterexample: with two workers of which only the second is
ready and a random draw pointing the single free slot at the first, the slot
stays unclaimed even though a ready worker exists — the code offers each slot
to exactly one worker, with no first-fit scan to the next ready one. -/
theorem randomAssign_counterexample :
    randomAssignSectorTaskToWorker (fun _ => 0)
        [⟨false, []⟩, ⟨true, []⟩] [false] =
      some ([⟨false, []⟩, ⟨true, []⟩], [false]) ∧
    (([⟨false, []⟩, ⟨true, []⟩] : List Worker).getD 1 ⟨false, []⟩).ready = true :=
  ⟨rfl, rfl⟩

/-- Claim C7 (amended): each free sector slot `i` is offered to the single
worker at pseudo-random index `(i + rand.Int()) mod len(workers)` and is
claimed exactly when that worker is ready; a free slot remains unclaimed
after the round exactly when its one chosen worker is not ready — even if
other workers in the list are ready. -/
theorem randomAssignSectorTaskToWorker_spec (rand : ℕ → ℕ) (ws : List Worker)
    (slots : List Bool) (hws : ws.length ≠ 0) (ws2 : List Worker)
    (sl : List Bool)
    (h : randomAssignSectorTaskToWorker rand ws slots = some (ws2, sl)) :
    sl.length = slots.length ∧
    (∀ k, k < slots.length →
      sl.getD k true =
        (slots.getD k false ||
          (ws.getD ((k + rand k) % ws.length) ⟨false, []⟩).ready)) ∧
    (∀ k, k < slots.length → sl.getD k true = false →
      slots.getD k false = false ∧
      (ws.getD ((k + rand k) % ws.length) ⟨false, []⟩).ready = false) := by
  obtain ⟨ws2', sl', heq, _, _, hsllen, hsl⟩ := randomAssignGo_spec rand slots 0 ws hws
  rw [randomAssignSectorTaskToWorker] at h
  have hsl_eq : sl' = sl := congrArg Prod.snd (Option.some.inj (heq.symm.trans h))
  rw [hsl_eq] at hsllen hsl
  have hchar : ∀ k, k < slots.length →
      sl.getD k true =
        (slots.getD k false ||
          (ws.getD ((k + rand k) % ws.length) ⟨false, []⟩).ready) := by
    intro k hk
    have := hsl k hk
    simpa using this
  refine ⟨hsllen, hchar, fun k hk hfree => ?_⟩
  have := hchar k hk
  rw [hfree] at this
  exact ⟨(Bool.or_eq_false_iff.mp this.symm).1, (Bool.or_eq_false_iff.mp this.symm).2⟩

/-- Witness for the amended C7: one ready worker, one free slot; the slot is
claimed because its chosen worker is ready. -/
theorem randomAssignSectorTaskToWorker_spec_witness :
    (([⟨true, []⟩] : List Worker).length ≠ 0) ∧
      ([true] : List Bool).getD 0 true =
        (([false] : List Bool).getD 0 false ||
          (([⟨true, []⟩] : List Worker).getD ((0 + 0) % 1) ⟨false, []⟩).ready) :=
  ⟨by decide,
    (randomAssignSectorTaskToWorker_spec (fun _ => 0) [⟨true, []⟩] [false]
      (by decide) [⟨true, [0]⟩] [true] rfl).2.1 0 (by decide)⟩

/-- Number of free (`false`) sector slots in a slot-status list. -/
def freeCount (slots : List Bool) : ℕ := slots.countP (fun s => !s)

/-- Number of free slots strictly before position `k` — the rank of slot `k`
among the free slots. -/
def freeRank (slots : List Bool) (k : ℕ) : ℕ := freeCount (slots.take k)

theorem freeCount_nil : freeCount [] = 0 := rfl

theorem freeCount_cons (s : Bool) (rest : List Bool) :
    freeCount (s :: rest) = freeCount rest + if s then 0 else 1 := by
  cases s <;> simp [freeCount, List.countP_cons]

theorem freeRank_zero (slots : List Bool) : freeRank slots 0 = 0 := rfl

theorem freeRank_succ (s : Bool) (rest : List Bool) (k : ℕ) :
    freeRank (s :: rest) (k + 1) = freeRank rest k + if s then 0 else 1 := by
  cases s <;> simp [freeRank, freeCount, List.take, List.countP_cons, Nat.add_comm]

/-- The slot-trimming loop at the top of `cleanupUploadSegment`, walking the
sector slots at absolute index `i` and carrying `sectorsAvailable` and the
memory counted for return.  A still-free slot is released when
`sectorsAvailable >= workersRemain`: one sector size is counted, the backing
buffer entry `physicalSegmentData[i]` is cleared, and the slot is marked
claimed so memory is not double released; otherwise `sectorsAvailable` is
incremented.  The source indexes `physicalSegmentData[i]` unconditionally
(its length guard is an empty TODO), so an index out of range — possible
after a failed retrieval or encode — is the Go runtime panic, modelled as
`none`. -/
def cleanupTrimSlots (ss : ℕ) (wR : ℤ) :
    List Bool → ℕ → List (Option Bytes) → ℕ → ℕ →
      Option (List Bool × List (Option Bytes) × ℕ × ℕ)
  | [], _, phys, avail, mem => some ([], phys, avail, mem)
  | s :: rest, i, phys, avail, mem =>
    if s then
      match cleanupTrimSlots ss wR rest (i + 1) phys avail mem with
      | none => none
      | some (sl, ph, a, m) => some (true :: sl, ph, a, m)
    else if wR ≤ (avail : ℤ) then
      if i < phys.length then
        match cleanupTrimSlots ss wR rest (i + 1) (phys.set i none) avail (mem + ss) with
        | none => none
        | some (sl, ph, a, m) => some (true :: sl, ph, a, m)
      else none
    else
      match cleanupTrimSlots ss wR rest (i + 1) phys (avail + 1) mem with
      | none => none
      | some (sl, ph, a, m) => some (false :: sl, ph, a, m)

theorem freeCount_cons_true (rest : List Bool) :
    freeCount (true :: rest) = freeCount rest := by
  simp [freeCount_cons]

theorem freeCount_cons_false (rest : List Bool) :
    freeCount (false :: rest) = freeCount rest + 1 := by
  simp [freeCount_cons]

theorem freeRank_succ_true (rest : List Bool) (k : ℕ) :
    freeRank (true :: rest) (k + 1) = freeRank rest k := by
  simp [freeRank_succ]

theorem freeRank_succ_false (rest : List Bool) (k : ℕ) :
    freeRank (false :: rest) (k + 1) = freeRank rest k + 1 := by
  simp [freeRank_succ]

theorem cleanupTrimSlots_spec (ss : ℕ) (wR : ℤ) :
    ∀ (slots : List Bool) (i : ℕ) (phys : List (Option Bytes)) (avail mem : ℕ),
      i + slots.length ≤ phys.length →
      ∃ sl ph a m,
        cleanupTrimSlots ss wR slots i phys avail mem = some (sl, ph, a, m) ∧
        sl.length = slots.length ∧
        ph.length = phys.length ∧
        (∀ k, k < slots.length →
          sl.getD k true =
            (slots.getD k false ||
              decide (wR ≤ (avail : ℤ) + (freeRank slots k : ℤ)))) ∧
        (∀ k, k < slots.length →
          ph.getD (i + k) none =
            if slots.getD k false = false ∧
                wR ≤ (avail : ℤ) + (freeRank slots k : ℤ)
            then none else phys.getD (i + k) none) ∧
        (∀ j, j < i → ph.getD j none = phys.getD j none) ∧
        a = avail + min (freeCount slots) (wR - (avail : ℤ)).toNat ∧
        m = mem + ss * (freeCount slots - min (freeCount slots) (wR - (avail : ℤ)).toNat) ∧
        freeCount sl = min (freeCount slots) (wR - (avail : ℤ)).toNat := by
  intro slots
  induction slots with
  | nil =>
    intro i phys avail mem _
    refine ⟨[], phys, avail, mem, rfl, rfl, rfl, ?_, ?_, fun _ _ => rfl, ?_, ?_, ?_⟩
    · intro k hk
      exact absurd hk (by simp)
    · intro k hk
      exact absurd hk (by simp)
    · simp [freeCount]
    · simp [freeCount]
    · simp [freeCount]
  | cons s rest ih =>
    intro i phys avail mem hlen
    have hlen' : (i + 1) + rest.length ≤ phys.length := by
      simp only [List.length_cons] at hlen
      omega
    cases s with
    | true =>
      obtain ⟨sl, ph, a, m, heq, h1, h2, h3, h4, h5, h6, h7, h8⟩ :=
        ih (i + 1) phys avail mem hlen'
      refine ⟨true :: sl, ph, a, m, ?_, by simp [h1], h2, ?_, ?_, ?_, ?_, ?_, ?_⟩
      · unfold cleanupTrimSlots
        rw [if_pos rfl, heq]
      · intro k hk
        match k with
        | 0 => simp
        | k + 1 =>
          have hk' : k < rest.length := by simpa using hk
          have h3k := h3 k hk'
          rw [List.getD_cons_succ, List.getD_cons_succ, freeRank_succ_true]
          exact h3k
      · intro k hk
        match k with
        | 0 =>
          have h50 := h5 i (by omega)
          rw [Nat.add_zero, h50, if_neg (by simp)]
        | k + 1 =>
          have hk' : k < rest.length := by simpa using hk
          have h4k := h4 k hk'
          have hidx : i + 1 + k = i + (k + 1) := by omega
          rw [hidx] at h4k
          rw [h4k, List.getD_cons_succ, freeRank_succ_true]
      · intro j hj
        exact h5 j (by omega)
      · rw [h6, freeCount_cons_true]
      · rw [h7, freeCount_cons_true]
      · rw [freeCount_cons_true, h8, freeCount_cons_true]
    | false =>
      by_cases hc : wR ≤ (avail : ℤ)
      · -- enough slots already kept available: release this slot
        have hi : i < phys.length := by
          simp only [List.length_cons] at hlen
          omega
        obtain ⟨sl, ph, a, m, heq, h1, h2, h3, h4, h5, h6, h7, h8⟩ :=
          ih (i + 1) (phys.set i none) avail (mem + ss)
            (by rw [List.length_set]; exact hlen')
        have ht : (wR - (avail : ℤ)).toNat = 0 := by omega
        refine ⟨true :: sl, ph, a, m, ?_, by simp [h1],
          by rw [h2, List.length_set], ?_, ?_, ?_, ?_, ?_, ?_⟩
        · unfold cleanupTrimSlots
          rw [if_neg (by simp), if_pos hc, if_pos hi, heq]
        · intro k hk
          match k with
          | 0 =>
            simp only [List.getD_cons_zero, freeRank_zero]
            rw [decide_eq_true (by push_cast; omega :
              wR ≤ (avail : ℤ) + ((0 : ℕ) : ℤ))]
            simp
          | k + 1 =>
            have hk' : k < rest.length := by simpa using hk
            have h3k := h3 k hk'
            rw [List.getD_cons_succ, List.getD_cons_succ, h3k,
              decide_eq_true (by omega :
                wR ≤ (avail : ℤ) + ((freeRank rest k : ℕ) : ℤ)),
              freeRank_succ_false,
              decide_eq_true (by push_cast; omega :
                wR ≤ (avail : ℤ) + ((freeRank rest k + 1 : ℕ) : ℤ))]
        · intro k hk
          match k with
          | 0 =>
            have h50 := h5 i (by omega)
            rw [Nat.add_zero, h50, getD_set_self phys hi,
              if_pos ⟨rfl, by rw [freeRank_zero]; push_cast; omega⟩]
          | k + 1 =>
            have hk' : k < rest.length := by simpa using hk
            have h4k := h4 k hk'
            have hidx : i + 1 + k = i + (k + 1) := by omega
            rw [hidx] at h4k
            rw [h4k, getD_set_ne phys (by omega)]
            refine if_congr ?_ rfl rfl
            rw [List.getD_cons_succ, freeRank_succ_false]
            constructor
            · rintro ⟨ha, -⟩
              exact ⟨ha, by omega⟩
            · rintro ⟨ha, -⟩
              exact ⟨ha, by omega⟩
        · intro j hj
          have h5j := h5 j (by omega)
          rw [h5j, getD_set_ne phys (by omega)]
        · rw [h6, ht, freeCount_cons_false]
          simp
        · rw [h7, ht, freeCount_cons_false]
          have ht1 : (wR - ((avail : ℕ) : ℤ)).toNat = 0 := ht
          simp only [Nat.min_zero, Nat.sub_zero]
          ring
        · rw [freeCount_cons_true, h8, ht, freeCount_cons_false]
          simp
      · -- still fewer kept than workersRemain: keep this slot available
        obtain ⟨sl, ph, a, m, heq, h1, h2, h3, h4, h5, h6, h7, h8⟩ :=
          ih (i + 1) phys (avail + 1) mem hlen'
        refine ⟨false :: sl, ph, a, m, ?_, by simp [h1], h2, ?_, ?_, ?_, ?_, ?_, ?_⟩
        · unfold cleanupTrimSlots
          rw [if_neg (by simp), if_neg hc, heq]
        · intro k hk
          match k with
          | 0 =>
            simp only [List.getD_cons_zero, freeRank_zero]
            rw [decide_eq_false (by push_cast; omega :
              ¬ wR ≤ (avail : ℤ) + ((0 : ℕ) : ℤ))]
            simp
          | k + 1 =>
            have hk' : k < rest.length := by simpa using hk
            have h3k := h3 k hk'
            rw [List.getD_cons_succ, List.getD_cons_succ, h3k, freeRank_succ_false]
            congr 1
            rw [decide_eq_decide]
            push_cast
            omega
        · intro k hk
          match k with
          | 0 =>
            have h50 := h5 i (by omega)
            rw [Nat.add_zero, h50,
              if_neg (by
                rintro ⟨-, hle⟩
                rw [freeRank_zero] at hle
                push_cast at hle
                omega)]
          | k + 1 =>
            have hk' : k < rest.length := by simpa using hk
            have h4k := h4 k hk'
            have hidx : i + 1 + k = i + (k + 1) := by omega
            rw [hidx] at h4k
            rw [h4k]
            refine if_congr ?_ rfl rfl
            rw [List.getD_cons_succ, freeRank_succ_false]
            constructor
            · rintro ⟨ha, hle⟩
              exact ⟨ha, by push_cast at hle ⊢; omega⟩
            · rintro ⟨ha, hle⟩
              exact ⟨ha, by push_cast at hle ⊢; omega⟩
        · intro j hj
          exact h5 j (by omega)
        · rw [h6, freeCount_cons_false]
          omega
        · rw [h7, freeCount_cons_false]
          congr 1
          congr 1
          omega
        · rw [freeCount_cons_false, h8, freeCount_cons_false]
          omega

/-- The externally visible actions of one `cleanupUploadSegment` call: whether
backup workers were notified, the bytes handed back to the memory manager,
whether the stuck status was updated, the file handle closed, the segment
deleted from `pendingSegments`, and whether the final memory sanity check
logged a mismatch. -/
structure CleanupEffects where
  notifiedBackupWorkers : Bool
  memoryReturned : ℕ
  updatedStuckStatus : Bool
  closedFile : Bool
  removedFromPending : Bool
  sanityLogged : Bool
deriving DecidableEq

/-- `cleanupUploadSegment`: under the segment lock, trim unnecessary free
slots (`cleanupTrimSlots`), recompute the completion predicate, perform the
set-once `released` transition, and add the trimmed memory to
`memoryReleased`; outside the lock, notify the backup workers when kept free
slots exist (which reassigns slots through
`randomAssignSectorTaskToWorker` on the swapped-out backup list — a runtime
panic there, `none`, propagates), return trimmed memory, and — only on the
`false → true` released transition — update stuck status, close the file and
delete the segment from the pending set.  The final sanity check compares the
total released memory with `memoryNeeded` when the segment is complete. -/
def cleanupUploadSegment (ss : ℕ) (rand : ℕ → ℕ)
    (uc : UnfinishedUploadSegment) :
    Option (UnfinishedUploadSegment × CleanupEffects) :=
  match cleanupTrimSlots ss uc.workersRemain uc.sectorSlotsStatus 0
      uc.physicalSegmentData 0 0 with
  | none => none
  | some (slots1, phys1, sectorsAvailable, memoryReleased) =>
    let ucT := { uc with sectorSlotsStatus := slots1, physicalSegmentData := phys1 }
    let segmentComplete := IsSegmentUploadComplete ucT
    let released := ucT.released
    let uc1 := { ucT with
      released := if segmentComplete && !released then true else ucT.released,
      memoryReleased := ucT.memoryReleased + memoryReleased }
    let eff : CleanupEffects :=
      { notifiedBackupWorkers := decide (0 < sectorsAvailable)
        memoryReturned := memoryReleased
        updatedStuckStatus := segmentComplete && !released
        closedFile := segmentComplete && !released
        removedFromPending := segmentComplete && !released
        sanityLogged := segmentComplete && decide (uc1.memoryReleased ≠ uc.memoryNeeded) }
    if 0 < sectorsAvailable then
      match randomAssignSectorTaskToWorker rand uc1.workerBackups
          uc1.sectorSlotsStatus with
      | none => none
      | some (_, slots2) =>
        some ({ uc1 with sectorSlotsStatus := slots2, workerBackups := [] }, eff)
    else
      some (uc1, eff)

/-- Claim C5: cleanup on an already-released segment performs none of the
removal actions — it does not close the file, does not update the stuck
status, does not delete from the pending set — and `released` stays true;
moreover any call that does delete from the pending set leaves the segment
released, so the deletion can happen at most once per segment. -/
theorem cleanupUploadSegment_released_noop (ss : ℕ) (rand : ℕ → ℕ)
    (s s' : UnfinishedUploadSegment) (e : CleanupEffects)
    (h : cleanupUploadSegment ss rand s = some (s', e)) :
    (s.released = true →
      e.closedFile = false ∧ e.updatedStuckStatus = false ∧
        e.removedFromPending = false ∧ s'.released = true) ∧
    (e.removedFromPending = true → s'.released = true) := by
  unfold cleanupUploadSegment at h
  cases htrim : cleanupTrimSlots ss s.workersRemain s.sectorSlotsStatus 0
      s.physicalSegmentData 0 0 with
  | none =>
    rw [htrim] at h
    cases h
  | some res =>
    obtain ⟨slots1, phys1, avail, mem⟩ := res
    rw [htrim] at h
    simp only at h
    by_cases hav : 0 < avail
    · rw [if_pos hav] at h
      cases hra : randomAssignSectorTaskToWorker rand s.workerBackups slots1 with
      | none =>
        rw [hra] at h
        cases h
      | some p =>
        obtain ⟨ws2, slots2⟩ := p
        rw [hra] at h
        simp only at h
        have hpair := Option.some.inj h
        rw [Prod.mk.injEq] at hpair
        obtain ⟨hs, hee⟩ := hpair
        constructor
        · intro hrel
          refine ⟨?_, ?_, ?_, ?_⟩
          · rw [← hee]
            simp [hrel]
          · rw [← hee]
            simp [hrel]
          · rw [← hee]
            simp [hrel]
          · rw [← hs]
            simp only [UnfinishedUploadSegment.mk.injEq]
            simp [hrel]
        · intro hrem
          rw [← hee] at hrem
          simp only at hrem
          rw [← hs]
          simp [hrem]
    · rw [if_neg hav] at h
      have hpair := Option.some.inj h
      rw [Prod.mk.injEq] at hpair
      obtain ⟨hs, hee⟩ := hpair
      constructor
      · intro hrel
        refine ⟨?_, ?_, ?_, ?_⟩
        · rw [← hee]
          simp [hrel]
        · rw [← hee]
          simp [hrel]
        · rw [← hee]
          simp [hrel]
        · rw [← hs]
          simp [hrel]
      · intro hrem
        rw [← hee] at hrem
        simp only at hrem
        rw [← hs]
        simp [hrem]

/-- Segment used as the released-idempotence witness: complete, already
released, all slots claimed. -/
def segW5 : UnfinishedUploadSegment :=
  { baseSegment with
    sectorsAllNeedNum := 1, sectorSlotsStatus := [true],
    physicalSegmentData := [some []], sectorsCompletedNum := 1,
    released := true }

/-- The effects of cleanup on `segW5`. -/
def segW5Eff : CleanupEffects :=
  { notifiedBackupWorkers := false, memoryReturned := 0,
    updatedStuckStatus := false, closedFile := false,
    removedFromPending := false, sanityLogged := false }

/-- Witness for C5: on a complete segment that is already released, cleanup
closes nothing, updates nothing, removes nothing, and leaves `released`
true. -/
theorem cleanupUploadSegment_released_noop_witness :
    segW5.released = true ∧
      segW5Eff.closedFile = false ∧ segW5Eff.updatedStuckStatus = false ∧
      segW5Eff.removedFromPending = false := by
  have h : cleanupUploadSegment 1 (fun _ => 0) segW5 = some (segW5, segW5Eff) := by
    decide
  have h2 := (cleanupUploadSegment_released_noop 1 (fun _ => 0) segW5 segW5
    segW5Eff h).1 rfl
  exact ⟨rfl, h2.1, h2.2.1, h2.2.2.1⟩

/-- Claim C6 counterexample: with `workersRemain = 0` and a single free slot,
the trimming pass releases the slot (marks it claimed, clears its buffer and
counts one sector size) although the number of already-kept free slots, `0`,
does not strictly exceed `workersRemain = 0` — the source releases when the
kept count is greater than *or equal to* `workersRemain`. -/
theorem cleanupTrimSlots_counterexample :
    cleanupTrimSlots 5 0 [false] 0 [some [1]] 0 0 =
      some ([true], [none], 0, 5) ∧
    ¬ ((0 : ℤ) > 0) := ⟨by decide, by decide⟩

/-- Claim C6 (amended): in the trimming pass (slot walk of
`cleanupUploadSegment`), a free slot whose rank among the free slots is `r`
is released — buffer cleared, one sector size counted, slot marked claimed —
exactly when `r ≥ workersRemain`, i.e. when the number of already-kept free
slots is at least (not strictly greater than) `workersRemain`; consequently
exactly `min(number of free slots, workersRemain)` slots stay free, the kept
ones being the earliest-indexed, and the counted memory is one sector size
per released slot. -/
theorem cleanupTrimSlots_release_iff (ss : ℕ) (wR : ℤ) (slots : List Bool)
    (phys : List (Option Bytes)) (h1 : slots.length ≤ phys.length)
    (h2 : 0 ≤ wR) (sl : List Bool) (ph : List (Option Bytes)) (a m : ℕ)
    (h : cleanupTrimSlots ss wR slots 0 phys 0 0 = some (sl, ph, a, m)) :
    (∀ k, k < slots.length →
      ((sl.getD k true = true ∧ slots.getD k false = false) ↔
        (slots.getD k false = false ∧ wR ≤ (freeRank slots k : ℤ)))) ∧
    (∀ k, k < slots.length → slots.getD k false = false →
      wR ≤ (freeRank slots k : ℤ) → ph.getD k none = none) ∧
    freeCount sl = min (freeCount slots) wR.toNat ∧
    m = ss * (freeCount slots - min (freeCount slots) wR.toNat) := by
  obtain ⟨sl', ph', a', m', heq, hl1, hl2, hslots, hphys, hpre, ha, hm, hfc⟩ :=
    cleanupTrimSlots_spec ss wR slots 0 phys 0 0 (by simpa using h1)
  rw [heq] at h
  have h4 := Option.some.inj h
  obtain ⟨c1, c2⟩ := Prod.mk.injEq .. ▸ h4
  obtain ⟨c3, c4⟩ := Prod.mk.injEq .. ▸ c2
  obtain ⟨c5, c6⟩ := Prod.mk.injEq .. ▸ c4
  subst c1
  subst c3
  subst c5
  subst c6
  have hzero : ((0 : ℕ) : ℤ) = 0 := rfl
  refine ⟨?_, ?_, ?_, ?_⟩
  · intro k hk
    have hch := hslots k hk
    constructor
    · rintro ⟨hrel, hfree⟩
      refine ⟨hfree, ?_⟩
      rw [hfree, Bool.false_or] at hch
      rw [hch] at hrel
      have := of_decide_eq_true hrel
      omega
    · rintro ⟨hfree, hle⟩
      refine ⟨?_, hfree⟩
      rw [hfree, Bool.false_or] at hch
      rw [hch, decide_eq_true_eq]
      omega
  · intro k hk hfree hle
    have hph := hphys k hk
    rw [Nat.zero_add] at hph
    rw [hph, if_pos ⟨hfree, by omega⟩]
  · rw [hfc]
    congr 1
    omega
  · rw [hm]
    have : (wR - ((0 : ℕ) : ℤ)).toNat = wR.toNat := by omega
    rw [this]
    omega

/-- Witness for the amended C6: three free slots, `workersRemain = 2`: two
slots stay free, the third is released and one sector size (4) is counted. -/
theorem cleanupTrimSlots_release_iff_witness :
    (([false, false, false] : List Bool).length ≤
        ([some [], some [], some []] : List (Option Bytes)).length) ∧
      ((0 : ℤ) ≤ 2) ∧
      freeCount [false, false, true] =
        min (freeCount [false, false, false]) (2 : ℤ).toNat ∧
      (4 : ℕ) = 4 * (freeCount [false, false, false] -
        min (freeCount [false, false, false]) (2 : ℤ).toNat) := by
  have h := cleanupTrimSlots_release_iff 4 2 [false, false, false]
    [some [], some [], some []] (by decide) (by decide)
    [false, false, true] [some [], some [], none] 2 4 (by decide)
  exact ⟨by decide, by decide, h.2.2.1, h.2.2.2⟩

/-- The byte slice handed to `ErasureCode().Encode`: the source allocates
`make([]byte, len(logicalSegmentData)*SectorSize)` — a zero-filled slice of
that *length* — and then appends every logical buffer to it, so the encoder
input is `len(logicalSegmentData)*SectorSize` zero bytes followed by the
concatenated plaintext. -/
def segmentBytes (ss : ℕ) (logical : List Bytes) : Bytes :=
  List.replicate (logical.length * ss) 0 ++ logical.flatten

/-- The per-slot encryption loop of `retrieveDataAndDispatchSegment`: a
claimed slot has its physical entry set to nil; a free slot is encrypted,
and on an encryption error the plain sector is left in place (only logged).
Entries beyond the slot count are untouched. -/
def encryptSectors (encrypt : Bytes → Option Bytes) :
    List Bool → List (Option Bytes) → List (Option Bytes)
  | [], phys => phys
  | _ :: _, [] => []
  | s :: slots, p :: phys =>
    (if s then none
      else match encrypt (p.getD []) with
        | some c => some c
        | none => p) :: encryptSectors encrypt slots phys

/-- `dispatchSegment`: registers the segment in `pendingSegments` (set
membership, not modelled further), adds the worker-pool size to
`workersRemain`, and assigns free slots through
`randomAssignSectorTaskToWorker` over the pool snapshot (its runtime panic,
`none`, propagates); finally each worker is signalled (a channel send, no
segment state). -/
def dispatchSegment (rand : ℕ → ℕ) (pool : List Worker)
    (uc : UnfinishedUploadSegment) : Option UnfinishedUploadSegment :=
  let uc1 := { uc with workersRemain := uc.workersRemain + pool.length }
  match randomAssignSectorTaskToWorker rand pool uc1.sectorSlotsStatus with
  | none => none
  | some (_, slots2) => some { uc1 with sectorSlotsStatus := slots2 }

/-- `retrieveDataAndDispatchSegment`: computes
`erasureCodingMemory = SectorSize() * MinSectors()` and
`sectorCompletedMemory = storage.SectorSize * (number of claimed slots)`,
then retrieves the logical data, encodes, encrypts and dispatches, with
`cleanupUploadSegment` deferred to run after every exit.  The external
retrieval, erasure coder and cipher are parameters (`none` = the call
failed).  On retrieval failure the code returns
`erasureCodingMemory + sectorCompletedMemory`; on encode failure it returns
only `sectorCompletedMemory` and sets every entry of the returned (nil)
physical slice to nil; on success it returns `erasureCodingMemory` after
encoding and `sectorCompletedMemory` after encrypting (when nonzero).  The
result is the final segment after the deferred cleanup, the bytes the body
handed to `memoryManager.Return`, and the cleanup effects; `none` models a
runtime panic in the body or in the deferred cleanup. -/
def retrieveDataAndDispatchSegment (ss fsSize minSectors : ℕ)
    (retrieval : Option (List Bytes))
    (encode : Bytes → Option (List Bytes))
    (encrypt : Bytes → Option Bytes)
    (rand : ℕ → ℕ) (pool : List Worker)
    (uc : UnfinishedUploadSegment) :
    Option (UnfinishedUploadSegment × ℕ × CleanupEffects) :=
  let erasureCodingMemory := fsSize * minSectors
  let sectorCompletedMemory := ss * (uc.sectorSlotsStatus.countP (fun s => s))
  let body : Option (UnfinishedUploadSegment × ℕ) :=
    match retrieval with
    | none =>
      let ucf := { uc with logicalSegmentData := ([] : List Bytes),
                           workersRemain := (0 : ℤ),
                           memoryReleased := uc.memoryReleased +
                             (erasureCodingMemory + sectorCompletedMemory) }
      some (ucf, erasureCodingMemory + sectorCompletedMemory)
    | some logical =>
      let uc1 := { uc with logicalSegmentData := logical }
      match encode (segmentBytes ss uc1.logicalSegmentData) with
      | none =>
        let ucf := { uc1 with physicalSegmentData := ([] : List (Option Bytes)),
                              workersRemain := (0 : ℤ),
                              memoryReleased :=
                                uc1.memoryReleased + sectorCompletedMemory }
        some (ucf, sectorCompletedMemory)
      | some phys =>
        let uc2 := { uc1 with physicalSegmentData := phys.map some,
                              logicalSegmentData := ([] : List Bytes),
                              memoryReleased :=
                                uc1.memoryReleased + erasureCodingMemory }
        if uc2.physicalSegmentData.length < uc2.sectorSlotsStatus.length then
          some (uc2, erasureCodingMemory)
        else
          let phys3 :=
            encryptSectors encrypt uc2.sectorSlotsStatus uc2.physicalSegmentData
          let uc3 := { uc2 with physicalSegmentData := phys3 }
          let mr4 := uc3.memoryReleased + sectorCompletedMemory
          let uc4 := if 0 < sectorCompletedMemory then
              { uc3 with memoryReleased := mr4 }
            else uc3
          let ret4 := if 0 < sectorCompletedMemory then
              erasureCodingMemory + sectorCompletedMemory
            else erasureCodingMemory
          match dispatchSegment rand pool uc4 with
          | none => none
          | some uc5 => some (uc5, ret4)
  match body with
  | none => none
  | some (ucB, ret) =>
    match cleanupUploadSegment ss rand ucB with
    | none => none
    | some (ucC, eff) => some (ucC, ret, eff)

/-- Segment used for the memory-conservation runs: two sectors, both slots
already claimed, `memoryNeeded = 3 = erasureCodingMemory + 2 sectors`. -/
def segC1 : UnfinishedUploadSegment :=
  { baseSegment with
    memoryNeeded := 3, sectorsMinNeedNum := 1, sectorsAllNeedNum := 2,
    sectorSlotsStatus := [true, true], sectorsCompletedNum := 2,
    workersRemain := 4 }

/-- Claim C1: two failed attempts on the same segment — one failing at
retrieval, one failing at encoding — both end with the segment complete and
released, yet release different totals (3 vs 2): the encode-failure path
leaks the erasure-coding memory, so total `memoryReleased` cannot equal
`memoryNeeded` on every completed path, and the code's own completion sanity
check logs the mismatch on the encode-failure run. -/
theorem memory_accounting_diverges :
    ((retrieveDataAndDispatchSegment 1 1 1 none (fun _ => none)
        (fun b => some b) (fun _ => 0) [] segC1).map
      (fun r => (r.1.memoryReleased, r.1.released, r.2.2.sanityLogged)) =
      some (3, true, false)) ∧
    ((retrieveDataAndDispatchSegment 1 1 1 (some [[7]]) (fun _ => none)
        (fun b => some b) (fun _ => 0) [] segC1).map
      (fun r => (r.1.memoryReleased, r.1.released, r.2.2.sanityLogged)) =
      some (2, true, true)) ∧
    segC1.memoryNeeded = 3 ∧ (2 : ℕ) ≠ 3 :=
  ⟨rfl, rfl, rfl, by decide⟩

/-- Segment used for the abort-semantics comparison: one claimed sector,
`erasureCodingMemory = 6`, `sectorCompletedMemory = 2`. -/
def segC4 : UnfinishedUploadSegment :=
  { baseSegment with
    memoryNeeded := 8, sectorsMinNeedNum := 2, sectorsAllNeedNum := 1,
    sectorSlotsStatus := [true], sectorsCompletedNum := 1, workersRemain := 5 }

/-- Claim C4: on an encoding failure the code does set `workersRemain = 0`,
but it returns only `sectorCompletedMemory` (2 bytes) where the retrieval
failure returns `erasureCodingMemory + sectorCompletedMemory` (8 bytes) — the
abort is *not* identical and the erasure-coding memory is never returned. -/
theorem encode_failure_differs_from_retrieval_failure :
    ((retrieveDataAndDispatchSegment 2 3 2 (some [[1], [2]]) (fun _ => none)
        (fun b => some b) (fun _ => 0) [] segC4).map
      (fun r => (r.2.1, r.1.workersRemain, r.1.memoryReleased)) =
      some (2, 0, 2)) ∧
    ((retrieveDataAndDispatchSegment 2 3 2 none (fun _ => none)
        (fun b => some b) (fun _ => 0) [] segC4).map
      (fun r => (r.2.1, r.1.workersRemain, r.1.memoryReleased)) =
      some (8, 0, 8)) ∧
    (2 : ℕ) ≠ 8 :=
  ⟨rfl, rfl, by decide⟩

/-- Claim C8: the bytes passed to `Encode` are *not* the concatenation of the
logical buffers: with sector size `2` and one logical buffer `[1]`, the
`make`-then-`append` construction yields `[0, 0, 1]` — two zero bytes
prepended before the plaintext `[1]`. -/
theorem segmentBytes_prepends_zeros :
    segmentBytes 2 [[1]] = [0, 0, 1] ∧
    segmentBytes 2 [[1]] ≠ List.flatten [[1]] ∧
    List.flatten [([1] : Bytes)] = [1] :=
  ⟨rfl, by decide, rfl⟩

/-- Segment with one free slot and an empty physical-data slice, the state
left by a failed retrieval. -/
def segC9 : UnfinishedUploadSegment :=
  { baseSegment with
    sectorsAllNeedNum := 1, sectorSlotsStatus := [false], workersRemain := 0 }

/-- Claim C9: the core can end the process: a retrieval failure with a free
slot remaining drives the deferred cleanup into `physicalSegmentData[i]` with
`i` past the slice length (index-out-of-range runtime panic, the empty TODO
guard notwithstanding), and `randomAssignSectorTaskToWorker` with an empty
worker list computes `% 0` on the first slot (division-by-zero runtime
panic).  Both panics are modelled by `none`. -/
theorem upload_pipeline_panics :
    retrieveDataAndDispatchSegment 1 1 1 none (fun _ => none) (fun b => some b)
        (fun _ => 0) [] segC9 = none ∧
    cleanupUploadSegment 1 (fun _ => 0) segC9 = none ∧
    randomAssignSectorTaskToWorker (fun _ => 0) [] [false] = none :=
  ⟨rfl, rfl, rfl⟩
